import Mathlib

/-!
Shallow embedding of the DRG PoRep compound-proof assembly and the stacked
column commitment from `storage-proofs` (files
`src/porep/drg/compound.rs` and `src/stacked/column.rs`), together with
theorems settling the specification claims about them.

Scalar field elements (`Fr`) and hash domain values are modelled as `Nat`:
every operation verified here moves them around without arithmetic, so only
their identity matters.  Fallible Rust code (`Result`, `ensure!`, `?`) is
modelled with `Except CompoundErr`; panics (`assert!`, slice indexing) are
modelled with `Except ColumnErr`.
-/

deriving instance DecidableEq for Except

namespace FilProofs

/-- Scalar field element (`paired::bls12_381::Fr`), modelled as `Nat`. -/
abbrev Fr := Nat

/-- A hash domain value (`H::Domain`), modelled as `Nat`; the conversions
`H::Domain -> Fr -> PedersenDomain` are value-preserving reinterpretations,
so they are the identity here. -/
abbrev Domain := Nat

/-! ## Column (`src/storage-proofs/src/stacked/column.rs`) -/

/-- `Column<H>`: a node index together with the ordered per-layer rows. -/
structure Column where
  index : Nat
  rows : List Domain
deriving Repr, DecidableEq

/-- Panic causes of the column operations: `assertionFailed` models the
`assert!(layer > 0, "layer must be greater than 0")` panic, and
`indexOutOfBounds` models the slice-indexing panic of `self.rows[row_index]`. -/
inductive ColumnErr
  | assertionFailed
  | indexOutOfBounds
deriving Repr, DecidableEq

/-- `Column::hash`, parametric in the external column hash
`hash_single_column` (`crate::stacked::hash`): if there is exactly one row,
return it reinterpreted as a field value (the source computes
`let fr: Fr = self.rows[0].into(); fr.into()`, an identity embedding here);
otherwise hash the full ordered row sequence. -/
def Column.hash (hash_single_column : List Domain → Domain) (c : Column) : Domain :=
  if c.rows.length == 1 then
    c.rows.headD 0
  else
    hash_single_column c.rows

/-- `Column::get_node_at_layer`: asserts `layer > 0`, then indexes
`rows[layer - 1]`.  Both panics become explicit errors. -/
def Column.get_node_at_layer (c : Column) (layer : Nat) : Except ColumnErr Domain :=
  if layer > 0 then
    let row_index := layer - 1
    match c.rows[row_index]? with
    | some v => .ok v
    | none => .error .indexOutOfBounds
  else
    .error .assertionFailed

/-! ## Compound proof assembly (`src/storage-proofs/src/porep/drg/compound.rs`) -/

/-- Modelled from the spec: the `Graph` capability interface of §4.1/§4.3
(`size`, `degree`, `parents`), whose implementations (`drgraph`, zigzag) are
outside this excerpt.  `parentsFn node` is the node's ordered parent list
(`none` models a `GraphError`); `merkleTreeDepth` models
`graph.merkle_tree_depth::<typenum::U2>()`, the binary-tree depth derived
from the node count, used only by `blank_circuit`. -/
structure Graph where
  size : Nat
  degree : Nat
  parentsFn : Nat → Option (List Nat)
  merkleTreeDepth : Nat

/-- The caller-side buffer semantics of `graph.parents(challenge, &mut parents)`
in `generate_public_inputs`: the buffer is pre-allocated as
`vec![0; graph.degree()]` and filled in place, so after a successful call it
holds exactly `degree` entries (the parent list, truncated or zero-padded to
the buffer size). -/
def Graph.parentsBuf (g : Graph) (node : Nat) : Option (List Nat) :=
  (g.parentsFn node).map (fun ps => (ps ++ List.replicate g.degree 0).take g.degree)

/-- `Tau`: the commitment pair carried by non-private public inputs. -/
structure Tau where
  comm_r : Fr
  comm_d : Fr
deriving Repr, DecidableEq

/-- `drg::PublicInputs`. -/
structure PublicInputs where
  replica_id : Option Fr
  challenges : List Nat
  tau : Option Tau
deriving Repr, DecidableEq

/-- `drg::PublicParams` (`priv` is the source's `private` field, a Rust/Lean
keyword). -/
structure PublicParams where
  graph : Graph
  priv : Bool
  challenges_count : Nat

/-- `por::PublicInputs` as built by `generate_public_inputs`. -/
structure PorPublicInputs where
  commitment : Option Fr
  challenge : Nat
deriving Repr, DecidableEq

/-- `por::PublicParams` as built by `generate_public_inputs`. -/
structure PorPublicParams where
  leaves : Nat
  priv : Bool
deriving Repr, DecidableEq

/-- Error values of the compound-proof entry points, one constructor per
error site of the source (`context`/`ensure!` messages shown): -/
inductive CompoundErr
  /-- `context("missing replica id")` -/
  | missingReplicaId
  /-- `ensure!(pub_in.tau.is_none() == pub_params.private, "Public input parameter tau must be unset")` -/
  | tauMustBeUnset
  /-- `ensure!(len <= challenges, "too many challenges")` -/
  | tooManyChallenges
  /-- `ensure!(proof.replica_parents.len() == len, "Number of replica parents must match")` -/
  | replicaParentsMismatch
  /-- `ensure!(proof.replica_nodes.len() == len, "Number of replica nodes must match")` -/
  | replicaNodesMismatch
  /-- `context("is_private")` on a missing private component input -/
  | isPrivateMissing
  /-- `ensure!(public_inputs.tau.is_none() == public_params.private, "inconsistent private state")` -/
  | inconsistentPrivateState
  /-- an error propagated from `graph.parents(..)?` -/
  | graphError
  /-- an error propagated from `PoRCompound::generate_public_inputs(..)?` -/
  | porError
deriving Repr, DecidableEq

/-- The type of the external (not in this excerpt) PoR sub-scheme input
generator `PoRCompound::<H, U2>::generate_public_inputs` restricted to the
arguments this component passes (the third argument is always `None`);
`none` models its error case.  All theorems below quantify over it. -/
abbrev PorGen := PorPublicInputs → PorPublicParams → Option (List Fr)

/-- The `usize -> u32` cast `*challenge as u32` at the head of `por_nodes`:
it wraps modulo `2^32`; the later `node as usize` widening back is
value-preserving, so only this truncation is observable. -/
def asU32 (n : Nat) : Nat := n % 2 ^ 32

/-- The inner `for node in por_nodes` loop of `generate_public_inputs`:
extends the accumulated `input` vector with one PoR block per node, each
evaluated against `comm_r`. -/
def porNodesLoop (porGen : PorGen) (ppor : PorPublicParams) (comm_r : Option Fr) :
    List Nat → List Fr → Except CompoundErr (List Fr)
  | [], input => .ok input
  | node :: rest, input =>
    match porGen ⟨comm_r, node⟩ ppor with
    | none => .error .porError
    | some por_inputs => porNodesLoop porGen ppor comm_r rest (input ++ por_inputs)

/-- The outer `for challenge in challenges` loop of `generate_public_inputs`:
for each challenge, build `por_nodes` as the `u32`-truncated challenge
(`vec![*challenge as u32]`) followed by the degree-sized parent buffer,
extend `input` with one PoR block per entry against `comm_r`, then with one
PoR block for the untruncated challenge against `comm_d`. -/
def challengesLoop (porGen : PorGen) (pp : PublicParams) (ppor : PorPublicParams)
    (comm_r comm_d : Option Fr) :
    List Nat → List Fr → Except CompoundErr (List Fr)
  | [], input => .ok input
  | challenge :: rest, input =>
    match pp.graph.parentsBuf challenge with
    | none => .error .graphError
    | some parents =>
      match porNodesLoop porGen ppor comm_r (asU32 challenge :: parents) input with
      | .error e => .error e
      | .ok input2 =>
        match porGen ⟨comm_d, challenge⟩ ppor with
        | none => .error .porError
        | some por_inputs =>
          challengesLoop porGen pp ppor comm_r comm_d rest (input2 ++ por_inputs)

/-- `DrgPoRepCompound::generate_public_inputs`: unwrap the replica id
(`context("missing replica id")`), check the privacy consistency
(`ensure!(tau.is_none() == private)`), split `tau` into the optional
commitments, and build the input vector starting from `[replica_id]` by the
challenge loop. -/
def generate_public_inputs (porGen : PorGen) (pub_in : PublicInputs)
    (pub_params : PublicParams) : Except CompoundErr (List Fr) :=
  match pub_in.replica_id with
  | none => .error .missingReplicaId
  | some replica_id =>
    if pub_in.tau.isNone = pub_params.priv then
      let cs : Option Fr × Option Fr :=
        match pub_in.tau with
        | none => (none, none)
        | some tau => (some tau.comm_r, some tau.comm_d)
      let por_pub_params : PorPublicParams := ⟨pub_params.graph.size, pub_params.priv⟩
      challengesLoop porGen pub_params por_pub_params cs.1 cs.2
        pub_in.challenges [replica_id]
    else
      .error .tauMustBeUnset

/-- The `por::PublicParams` value `generate_public_inputs` constructs. -/
def porParamsOf (pp : PublicParams) : PorPublicParams :=
  ⟨pp.graph.size, pp.priv⟩

/-- The replica commitment extracted from `tau` (`comm_r`), `None` when `tau`
is absent. -/
def commROf (pub_in : PublicInputs) : Option Fr :=
  pub_in.tau.map Tau.comm_r

/-- The data commitment extracted from `tau` (`comm_d`), `None` when `tau`
is absent. -/
def commDOf (pub_in : PublicInputs) : Option Fr :=
  pub_in.tau.map Tau.comm_d

/-! Spec-side layout description, written from the spec's words (§4.5) for
the refinement comparison: "the replica id; then, for each challenge `c`: a
PoR input block for `c` together with all of its parent indices evaluated
against the replica commitment, followed by one PoR input block for `c`
evaluated against the data commitment". -/

/-- One PoR input block per listed node, all against commitment `comm`,
collected as a list of blocks. -/
def porBlocks (porGen : PorGen) (ppor : PorPublicParams) (comm : Option Fr) :
    List Nat → Except CompoundErr (List (List Fr))
  | [] => .ok []
  | n :: rest =>
    match porGen ⟨comm, n⟩ ppor with
    | none => .error .porError
    | some b =>
      match porBlocks porGen ppor comm rest with
      | .error e => .error e
      | .ok bs => .ok (b :: bs)

/-- The flat block the spec assigns to one challenge `c`: the PoR blocks for
`c` and each of its `degree` parents against the replica commitment,
followed by the PoR block for `c` against the data commitment. -/
def challengeBlock (porGen : PorGen) (pp : PublicParams) (ppor : PorPublicParams)
    (comm_r comm_d : Option Fr) (c : Nat) : Except CompoundErr (List Fr) :=
  match pp.graph.parentsBuf c with
  | none => .error .graphError
  | some parents =>
    match porBlocks porGen ppor comm_r (c :: parents) with
    | .error e => .error e
    | .ok rblocks =>
      match porGen ⟨comm_d, c⟩ ppor with
      | none => .error .porError
      | some dblock => .ok (rblocks.flatten ++ dblock)

/-- The spec layout blocks for a challenge sequence, one flat block per
challenge, in the given order. -/
def challengeBlocks (porGen : PorGen) (pp : PublicParams) (ppor : PorPublicParams)
    (comm_r comm_d : Option Fr) : List Nat → Except CompoundErr (List (List Fr))
  | [] => .ok []
  | c :: rest =>
    match challengeBlock porGen pp ppor comm_r comm_d c with
    | .error e => .error e
    | .ok b =>
      match challengeBlocks porGen pp ppor comm_r comm_d rest with
      | .error e => .error e
      | .ok bs => .ok (b :: bs)

/-- The flat block the source actually produces for one challenge `c`: like
`challengeBlock`, except that the PoR block evaluated against the replica
commitment for the challenge itself is requested at the `u32`-truncated
index (`*challenge as u32`), while the data-commitment block uses the
untruncated `*challenge`. -/
def challengeBlockU32 (porGen : PorGen) (pp : PublicParams) (ppor : PorPublicParams)
    (comm_r comm_d : Option Fr) (c : Nat) : Except CompoundErr (List Fr) :=
  match pp.graph.parentsBuf c with
  | none => .error .graphError
  | some parents =>
    match porBlocks porGen ppor comm_r (asU32 c :: parents) with
    | .error e => .error e
    | .ok rblocks =>
      match porGen ⟨comm_d, c⟩ ppor with
      | none => .error .porError
      | some dblock => .ok (rblocks.flatten ++ dblock)

/-- The truncation-aware layout blocks for a challenge sequence, one flat
block per challenge, in the given order. -/
def challengeBlocksU32 (porGen : PorGen) (pp : PublicParams) (ppor : PorPublicParams)
    (comm_r comm_d : Option Fr) : List Nat → Except CompoundErr (List (List Fr))
  | [] => .ok []
  | c :: rest =>
    match challengeBlockU32 porGen pp ppor comm_r comm_d c with
    | .error e => .error e
    | .ok b =>
      match challengeBlocksU32 porGen pp ppor comm_r comm_d rest with
      | .error e => .error e
      | .ok bs => .ok (b :: bs)

/-! ### `circuit` and `blank_circuit` -/

/-- One element of the option-encoded merkle path produced by
`MerkleProof::as_options()`: the sibling values of the tree row (a vector of
`arity - 1` optional field elements) paired with the optional direction bit. -/
abbrev PathElem := List (Option Fr) × Option Bool

/-- An option-encoded merkle path. -/
abbrev PathOpt := List PathElem

/-- A merkle inclusion proof (external `crate::merkle` collaborator),
modelled by the option-encoded path that `as_options()` yields from it. -/
structure MerkleProofM where
  as_options : PathOpt
deriving Repr, DecidableEq

/-- A proven node of the vanilla proof (`drgporep::DataProof`): the node's
value together with its inclusion proof. -/
structure DataProof where
  data : Fr
  proof : MerkleProofM
deriving Repr, DecidableEq

/-- The vanilla `drg::Proof` as consumed by `circuit`: challenged replica
nodes, per-challenge parent bundles (parent index paired with its proven
node), challenged data nodes, and the two roots. -/
structure Proof where
  replica_nodes : List DataProof
  replica_parents : List (List (Nat × DataProof))
  nodes : List DataProof
  replica_root : Fr
  data_root : Fr
deriving Repr, DecidableEq

/-- `gadgets::variables::Root`: either an already-allocated circuit variable
(`var`, its allocation abstracted away) or an optional constant value. -/
inductive Root
  | var
  | val (v : Option Fr)
deriving Repr, DecidableEq, Inhabited

/-- `ComponentPrivateInputs` of `DrgPoRepCircuit`: the optional
privately-bound commitments. -/
structure ComponentPrivateInputs where
  comm_d : Option Root
  comm_r : Option Root
deriving Repr, DecidableEq, Inhabited

/-- `DrgPoRepCircuit` (witness structure): the `params: &JJ_PARAMS` field of
the source is a global curve-constant reference with no per-circuit content
and is omitted.  `priv` is the source's `private` field. -/
structure DrgPoRepCircuit where
  replica_nodes : List (Option Fr)
  replica_nodes_paths : List PathOpt
  replica_root : Root
  replica_parents : List (List (Option Fr))
  replica_parents_paths : List (List PathOpt)
  data_nodes : List (Option Fr)
  data_nodes_paths : List PathOpt
  data_root : Root
  replica_id : Option Fr
  priv : Bool
deriving Repr, DecidableEq, Inhabited

/-- The root selection of `circuit`: in private mode both commitments must
be supplied through the component private inputs
(`context("is_private")?`), otherwise the roots are the proof's root values
as public constants.  Returns `(data_root, replica_root)`. -/
def chooseRoots (cpi : ComponentPrivateInputs) (proof : Proof) (is_private : Bool) :
    Except CompoundErr (Root × Root) :=
  if is_private then
    match cpi.comm_d with
    | none => .error .isPrivateMissing
    | some cd =>
      match cpi.comm_r with
      | none => .error .isPrivateMissing
      | some cr => .ok (cd, cr)
  else
    .ok (Root.val (some proof.data_root), Root.val (some proof.replica_root))

/-- `DrgPoRepCompound::circuit`: validate the proof-vector lengths, choose
the roots according to the privacy mode, re-validate the privacy invariant,
and assemble the witness structure. -/
def circuit (public_inputs : PublicInputs) (cpi : ComponentPrivateInputs)
    (proof : Proof) (public_params : PublicParams) :
    Except CompoundErr DrgPoRepCircuit :=
  let challenges := public_params.challenges_count
  let len := proof.nodes.length
  if len ≤ challenges then
    if proof.replica_parents.length = len then
      if proof.replica_nodes.length = len then
        let replica_nodes := proof.replica_nodes.map (fun node => some node.data)
        let replica_nodes_paths := proof.replica_nodes.map (fun node => node.proof.as_options)
        let is_private := public_params.priv
        match chooseRoots cpi proof is_private with
        | .error e => .error e
        | .ok (data_root, replica_root) =>
          let replica_id := public_inputs.replica_id
          let replica_parents :=
            proof.replica_parents.map (fun parents =>
              parents.map (fun p => some p.2.data))
          let replica_parents_paths :=
            proof.replica_parents.map (fun parents =>
              parents.map (fun p => p.2.proof.as_options))
          let data_nodes := proof.nodes.map (fun node => some node.data)
          let data_nodes_paths := proof.nodes.map (fun node => node.proof.as_options)
          if public_inputs.tau.isNone = public_params.priv then
            .ok
              { replica_nodes := replica_nodes
                replica_nodes_paths := replica_nodes_paths
                replica_root := replica_root
                replica_parents := replica_parents
                replica_parents_paths := replica_parents_paths
                data_nodes := data_nodes
                data_nodes_paths := data_nodes_paths
                data_root := data_root
                replica_id := replica_id
                priv := public_params.priv }
          else
            .error .inconsistentPrivateState
      else
        .error .replicaNodesMismatch
    else
      .error .replicaParentsMismatch
  else
    .error .tooManyChallenges

/-- `DrgPoRepCompound::blank_circuit`: the all-placeholder witness template,
sized by `challenges_count`, `degree`, the binary merkle depth, and
`arity = 2`. -/
def blank_circuit (public_params : PublicParams) : DrgPoRepCircuit :=
  let depth := public_params.graph.merkleTreeDepth
  let degree := public_params.graph.degree
  let arity := 2
  let challenges_count := public_params.challenges_count
  let blankPath : PathOpt :=
    List.replicate (depth - 1) (List.replicate (arity - 1) none, none)
  { replica_nodes := List.replicate challenges_count none
    replica_nodes_paths := List.replicate challenges_count blankPath
    replica_root := Root.val none
    replica_parents := List.replicate challenges_count (List.replicate degree none)
    replica_parents_paths :=
      List.replicate challenges_count (List.replicate degree blankPath)
    data_nodes := List.replicate challenges_count none
    data_nodes_paths := List.replicate challenges_count blankPath
    data_root := Root.val none
    replica_id := none
    priv := public_params.priv }

/-- The shape of an option-encoded merkle path: its length together with the
sibling-chunk width of every element (values erased). -/
def pathShape (p : PathOpt) : List Nat :=
  p.map (fun e => e.1.length)

/-- The structural shape of a `DrgPoRepCircuit`: all entry counts, bundle
sizes and path shapes, with every value erased. -/
def shapeOf (c : DrgPoRepCircuit) :
    Nat × List (List Nat) × List Nat × List (List (List Nat)) × Nat × List (List Nat) :=
  (c.replica_nodes.length,
   c.replica_nodes_paths.map pathShape,
   c.replica_parents.map List.length,
   c.replica_parents_paths.map (fun ps => ps.map pathShape),
   c.data_nodes.length,
   c.data_nodes_paths.map pathShape)

/-- Modelled from the spec: the shape invariants of a real vanilla proof
produced by the (external) prover under `pp` (§3: the three proof vectors
have one entry per challenge, `challenges_count` of them; every parent
bundle has `graph.degree()` entries; §4.5/§4.3: every inclusion path has
the binary-tree shape of depth `merkle_tree_depth`, i.e. `depth - 1`
elements of one sibling each). -/
@[reducible]
def wellFormedProof (pp : PublicParams) (proof : Proof) : Prop :=
  proof.nodes.length = pp.challenges_count ∧
  proof.replica_nodes.length = pp.challenges_count ∧
  proof.replica_parents.length = pp.challenges_count ∧
  (∀ node ∈ proof.replica_nodes,
    pathShape node.proof.as_options =
      List.replicate (pp.graph.merkleTreeDepth - 1) 1) ∧
  (∀ node ∈ proof.nodes,
    pathShape node.proof.as_options =
      List.replicate (pp.graph.merkleTreeDepth - 1) 1) ∧
  (∀ parents ∈ proof.replica_parents,
    parents.length = pp.graph.degree ∧
    ∀ p ∈ parents,
      pathShape p.2.proof.as_options =
        List.replicate (pp.graph.merkleTreeDepth - 1) 1)

/-! ### Concrete instances used by the witnesses -/

/-- A concrete PoR input generator: every request yields a block of two
scalars. -/
def porGenW : PorGen := fun i _ => some [i.challenge, i.commitment.getD 0]

/-- A concrete graph: 4 nodes, degree 2, binary tree depth 3. -/
def graphW : Graph :=
  { size := 4, degree := 2, parentsFn := fun n => some [n % 4, (n + 1) % 4],
    merkleTreeDepth := 3 }

/-- Concrete public parameters: non-private, two challenges. -/
def ppW : PublicParams := { graph := graphW, priv := false, challenges_count := 2 }

/-- Concrete consistent public inputs (`tau` present, non-private). -/
def pubInW : PublicInputs :=
  { replica_id := some 9, challenges := [1, 3], tau := some ⟨5, 6⟩ }

/-- Concrete inconsistent public inputs (`tau` absent although non-private). -/
def pubInBadW : PublicInputs :=
  { replica_id := some 9, challenges := [1], tau := none }

/-- Concrete public inputs with the replica id absent. -/
def pubInNoRidW : PublicInputs :=
  { replica_id := none, challenges := [1], tau := some ⟨5, 6⟩ }

/-- Empty component private inputs (unused in non-private mode). -/
def cpiW : ComponentPrivateInputs := { comm_d := none, comm_r := none }

/-- A proven node with a well-shaped binary path of `depth - 1 = 2` elements. -/
def dpW : DataProof :=
  { data := 3, proof := { as_options := [([some 0], some false), ([some 1], some true)] } }

/-- A well-formed vanilla proof for `ppW`: two challenges, parent bundles of
`degree = 2`. -/
def proofW : Proof :=
  { replica_nodes := [dpW, dpW]
    replica_parents := [[(0, dpW), (1, dpW)], [(0, dpW), (1, dpW)]]
    nodes := [dpW, dpW]
    replica_root := 7
    data_root := 8 }

/-- A proof with a single challenged node (fewer than `pubInW.challenges`). -/
def proofC4 : Proof :=
  { replica_nodes := [dpW]
    replica_parents := [[(0, dpW), (1, dpW)]]
    nodes := [dpW]
    replica_root := 7
    data_root := 8 }

/-- A proof with more challenged nodes than `ppW.challenges_count`. -/
def proofBigW : Proof :=
  { replica_nodes := [dpW, dpW, dpW]
    replica_parents := [[(0, dpW)], [(0, dpW)], [(0, dpW)]]
    nodes := [dpW, dpW, dpW]
    replica_root := 7
    data_root := 8 }

/-- A proof whose parent-bundle count disagrees with its node count. -/
def proofMismatchW : Proof :=
  { replica_nodes := [dpW, dpW]
    replica_parents := [[(0, dpW)]]
    nodes := [dpW, dpW]
    replica_root := 7
    data_root := 8 }

/-- The circuit `circuit` assembles from `proofW` (used by the C5 witness). -/
def circW : DrgPoRepCircuit :=
  (circuit pubInW cpiW proofW ppW).toOption.getD default

/-- The circuit `circuit` assembles from `proofW` (used by the C4 witness). -/
def circW4 : DrgPoRepCircuit :=
  (circuit pubInW cpiW proofW ppW).toOption.getD default

/-- The vector `generate_public_inputs` produces on the concrete instance
(used by the C3 witness). -/
def vecW : List Fr :=
  (generate_public_inputs porGenW pubInW ppW).toOption.getD []

/-- A column hash stand-in that is visibly not the identity on one row. -/
def sumHash : List Domain → Domain := fun l => 1000 + l.sum

/-- A PoR input generator that echoes the requested challenge index,
making the `u32` truncation observable in the output vector. -/
def porGenX : PorGen := fun i _ => some [i.challenge]

/-- A degree-1 graph large enough to hold a challenge at index `2^32 + 1`. -/
def graphX : Graph :=
  { size := 2 ^ 33, degree := 1, parentsFn := fun _ => some [0],
    merkleTreeDepth := 33 }

/-- Public parameters over `graphX`, non-private, one challenge. -/
def ppX : PublicParams := { graph := graphX, priv := false, challenges_count := 1 }

/-- Public inputs carrying a challenge beyond `u32` range (`2^32 + 1`). -/
def pubInX : PublicInputs :=
  { replica_id := some 9, challenges := [2 ^ 32 + 1], tau := some ⟨5, 6⟩ }

/-! ## Theorems -/

/-- C7: a single-row column hashes to that row itself (identity embedding,
no hash applied), and a column with two or more rows hashes to the column
hash function applied to the full ordered row sequence — for every choice
of the external `hash_single_column`. -/
theorem C7_column_hash (hsc : List Domain → Domain) (c : Column) :
    (∀ r, c.rows = [r] → Column.hash hsc c = r) ∧
    (2 ≤ c.rows.length → Column.hash hsc c = hsc c.rows) := by
  constructor
  · intro r hr
    simp [Column.hash, hr]
  · intro h2
    have hne : (c.rows.length == 1) = false := by
      rw [beq_eq_false_iff_ne]
      omega
    simp [Column.hash, hne]

/-- Witness for C7 at a concrete single-row and two-row column. -/
theorem C7_column_hash_witness :
    Column.hash sumHash ⟨0, [7]⟩ = 7 ∧
    Column.hash sumHash ⟨0, [7, 8]⟩ = sumHash [7, 8] :=
  ⟨(C7_column_hash sumHash ⟨0, [7]⟩).1 7 rfl,
   (C7_column_hash sumHash ⟨0, [7, 8]⟩).2 (by decide)⟩

/-- C8: for every layer with `1 ≤ layer ≤ rows.length`,
`get_node_at_layer` returns `rows[layer - 1]`; calling it with `layer = 0`
fails on the precondition assertion and never returns a value. -/
theorem C8_get_node_at_layer (c : Column) (layer : Nat) :
    (1 ≤ layer → layer ≤ c.rows.length →
      c.get_node_at_layer layer = .ok (c.rows.getD (layer - 1) 0)) ∧
    c.get_node_at_layer 0 = .error .assertionFailed := by
  constructor
  · intro h1 h2
    have h0 : 0 < layer := h1
    have hlt : layer - 1 < c.rows.length := by omega
    unfold Column.get_node_at_layer
    rw [if_pos h0]
    simp [List.getElem?_eq_getElem hlt, List.getD_eq_getElem c.rows 0 hlt]
  · simp [Column.get_node_at_layer]

/-- Witness for C8 at a concrete column: layer 2 of `[5, 6]` is `6`, and
layer 0 hits the assertion. -/
theorem C8_get_node_at_layer_witness :
    Column.get_node_at_layer ⟨0, [5, 6]⟩ 2 = .ok 6 ∧
    Column.get_node_at_layer ⟨0, [5, 6]⟩ 0 = .error .assertionFailed :=
  ⟨(C8_get_node_at_layer ⟨0, [5, 6]⟩ 2).1 (by decide) (by decide),
   (C8_get_node_at_layer ⟨0, [5, 6]⟩ 2).2⟩

/-- C10: indexing `rows[layer - 1]` is in bounds exactly when
`1 ≤ layer ≤ rows.length`: a positive layer beyond the row count fails with
the out-of-bounds panic (not a value), and within bounds the call always
succeeds. -/
theorem C10_get_node_bounds (c : Column) (layer : Nat) :
    (c.rows.length < layer →
      c.get_node_at_layer layer = .error .indexOutOfBounds) ∧
    (1 ≤ layer → layer ≤ c.rows.length →
      (c.get_node_at_layer layer).isOk = true) := by
  constructor
  · intro hgt
    have h1 : 0 < layer := by omega
    have hge : c.rows.length ≤ layer - 1 := by omega
    simp [Column.get_node_at_layer, h1, List.getElem?_eq_none hge]
  · intro h1 h2
    have h0 : 0 < layer := h1
    have hlt : layer - 1 < c.rows.length := by omega
    unfold Column.get_node_at_layer
    rw [if_pos h0]
    simp [List.getElem?_eq_getElem hlt, Except.isOk, Except.toBool]

/-- Witness for C10 at a concrete column: layer 3 of `[5, 6]` is out of
bounds, layer 2 succeeds. -/
theorem C10_get_node_bounds_witness :
    Column.get_node_at_layer ⟨0, [5, 6]⟩ 3 = .error .indexOutOfBounds ∧
    (Column.get_node_at_layer ⟨0, [5, 6]⟩ 2).isOk = true :=
  ⟨(C10_get_node_bounds ⟨0, [5, 6]⟩ 3).1 (by decide),
   (C10_get_node_bounds ⟨0, [5, 6]⟩ 2).2 (by decide) (by decide)⟩

/-- C9: whenever the replica id is absent, `generate_public_inputs` fails
with the "missing replica id" error and produces no vector. -/
theorem C9_missing_replica_id (porGen : PorGen) (pub_in : PublicInputs)
    (pp : PublicParams) (h : pub_in.replica_id = none) :
    generate_public_inputs porGen pub_in pp = .error .missingReplicaId := by
  simp [generate_public_inputs, h]

/-- Witness for C9 at concrete inputs with `replica_id = none`. -/
theorem C9_missing_replica_id_witness :
    generate_public_inputs porGenW pubInNoRidW ppW = .error .missingReplicaId :=
  C9_missing_replica_id porGenW pubInNoRidW ppW rfl

/-! ### Loop / layout equivalence helpers -/

/-- A successful `parentsBuf` call always yields exactly `degree` parents
(the buffer is pre-sized to `degree`). -/
theorem Graph.parentsBuf_length (g : Graph) (n : Nat) (ps : List Nat)
    (h : g.parentsBuf n = some ps) : ps.length = g.degree := by
  unfold Graph.parentsBuf at h
  cases hp : g.parentsFn n with
  | none => rw [hp] at h; cases h
  | some l =>
    rw [hp] at h
    simp only [Option.map_some', Option.some.injEq] at h
    subst h
    simp only [List.length_take, List.length_append, List.length_replicate]
    omega

/-- The accumulating inner loop equals the per-node block list, flattened
onto the accumulator. -/
theorem porNodesLoop_eq_blocks (porGen : PorGen) (ppor : PorPublicParams)
    (comm : Option Fr) :
    ∀ (nodes : List Nat) (input : List Fr),
      porNodesLoop porGen ppor comm nodes input =
        (porBlocks porGen ppor comm nodes).map (fun bs => input ++ bs.flatten) := by
  intro nodes
  induction nodes with
  | nil => intro input; simp [porNodesLoop, porBlocks, Except.map]
  | cons n rest ih =>
    intro input
    unfold porNodesLoop porBlocks
    cases hg : porGen ⟨comm, n⟩ ppor with
    | none => simp [Except.map]
    | some b =>
      dsimp only
      rw [ih (input ++ b)]
      cases hr : porBlocks porGen ppor comm rest with
      | error e => simp [Except.map]
      | ok bs => simp [Except.map, List.append_assoc]

/-- The accumulating outer loop equals the truncation-aware per-challenge
block list, flattened onto the accumulator. -/
theorem challengesLoop_eq_blocks (porGen : PorGen) (pp : PublicParams)
    (ppor : PorPublicParams) (comm_r comm_d : Option Fr) :
    ∀ (cs : List Nat) (input : List Fr),
      challengesLoop porGen pp ppor comm_r comm_d cs input =
        (challengeBlocksU32 porGen pp ppor comm_r comm_d cs).map
          (fun bs => input ++ bs.flatten) := by
  intro cs
  induction cs with
  | nil => intro input; simp [challengesLoop, challengeBlocksU32, Except.map]
  | cons c rest ih =>
    intro input
    unfold challengesLoop challengeBlocksU32 challengeBlockU32
    cases hpar : pp.graph.parentsBuf c with
    | none => simp [Except.map]
    | some parents =>
      dsimp only
      rw [porNodesLoop_eq_blocks porGen ppor comm_r (asU32 c :: parents) input]
      cases hpb : porBlocks porGen ppor comm_r (asU32 c :: parents) with
      | error e => simp [Except.map]
      | ok rblocks =>
        simp only [Except.map]
        cases hd : porGen ⟨comm_d, c⟩ ppor with
        | none => simp [Except.map]
        | some dblock =>
          dsimp only
          rw [ih (input ++ rblocks.flatten ++ dblock)]
          cases hrest : challengeBlocksU32 porGen pp ppor comm_r comm_d rest with
          | error e => simp [Except.map]
          | ok bs => simp [Except.map, List.append_assoc]

/-- C1 fails as stated: the source truncates the challenge to `u32`
(`vec![*challenge as u32]`, compound.rs:105) before requesting its
replica-commitment PoR block, so for a challenge beyond `u32` range the
block is requested at `c mod 2^32`, not at `c` as the claim's layout
demands.  With a PoR generator that echoes the requested index and the
challenge `2^32 + 1`, the produced vector differs from the claimed
(untruncated) layout although the replica id is present and the privacy
invariant holds. -/
theorem C1_counterexample :
    pubInX.replica_id = some 9 ∧ pubInX.tau.isNone = ppX.priv ∧
    generate_public_inputs porGenX pubInX ppX ≠
      (challengeBlocks porGenX ppX (porParamsOf ppX) (commROf pubInX) (commDOf pubInX)
          pubInX.challenges).map (fun bs => 9 :: bs.flatten) := by
  decide

/-- C1 (amended): with the replica id present and the privacy invariant
satisfied, `generate_public_inputs` yields the replica id first, then, for
each challenge in the given order, one PoR block for the `u32`-truncated
challenge and one per parent (the `degree`-sized parent buffer) evaluated
against the replica commitment, followed by exactly one PoR block for the
untruncated challenge against the data commitment — nothing else, in that
order. -/
theorem C1_public_input_layout (porGen : PorGen) (pub_in : PublicInputs)
    (pp : PublicParams) (rid : Fr)
    (hrid : pub_in.replica_id = some rid)
    (htau : pub_in.tau.isNone = pp.priv) :
    generate_public_inputs porGen pub_in pp =
      (challengeBlocksU32 porGen pp (porParamsOf pp) (commROf pub_in) (commDOf pub_in)
          pub_in.challenges).map (fun bs => rid :: bs.flatten) := by
  unfold generate_public_inputs
  rw [hrid]
  dsimp only
  rw [if_pos htau]
  cases ht : pub_in.tau with
  | none =>
    dsimp only
    rw [challengesLoop_eq_blocks]
    simp [commROf, commDOf, porParamsOf, ht]
  | some t =>
    dsimp only
    rw [challengesLoop_eq_blocks]
    simp [commROf, commDOf, porParamsOf, ht]

/-- Witness for the amended C1 at the concrete wrapping instance: the
equality holds with the truncation-aware layout at challenge `2^32 + 1`. -/
theorem C1_public_input_layout_witness :
    generate_public_inputs porGenX pubInX ppX =
      (challengeBlocksU32 porGenX ppX (porParamsOf ppX) (commROf pubInX) (commDOf pubInX)
          pubInX.challenges).map (fun bs => 9 :: bs.flatten) :=
  C1_public_input_layout porGenX pubInX ppX 9 rfl rfl

/-! ### Length accounting for C3 -/

/-- Flattening a list of equal-length blocks multiplies the counts. -/
theorem flatten_length_of_const {α : Type} (B : Nat) :
    ∀ bs : List (List α), (∀ b ∈ bs, b.length = B) →
      bs.flatten.length = bs.length * B := by
  intro bs
  induction bs with
  | nil => intro; simp
  | cons b rest ih =>
    intro h
    have hb : b.length = B := h b (by simp)
    have hrest : ∀ x ∈ rest, x.length = B := fun x hx => h x (by simp [hx])
    simp [List.length_append, hb, ih hrest, Nat.succ_mul, Nat.add_comm]

/-- When every PoR block has length `B`, `porBlocks` yields one block per
node, each of length `B`. -/
theorem porBlocks_ok_spec (porGen : PorGen) (ppor : PorPublicParams)
    (comm : Option Fr) (B : Nat)
    (hB : ∀ i out, porGen i ppor = some out → out.length = B) :
    ∀ nodes bs, porBlocks porGen ppor comm nodes = .ok bs →
      bs.length = nodes.length ∧ ∀ b ∈ bs, b.length = B := by
  intro nodes
  induction nodes with
  | nil =>
    intro bs h
    unfold porBlocks at h
    cases h
    simp
  | cons n rest ih =>
    intro bs h
    unfold porBlocks at h
    cases hg : porGen ⟨comm, n⟩ ppor with
    | none => rw [hg] at h; cases h
    | some b =>
      rw [hg] at h
      dsimp only at h
      cases hr : porBlocks porGen ppor comm rest with
      | error e => rw [hr] at h; cases h
      | ok bs2 =>
        rw [hr] at h
        cases h
        obtain ⟨hlen, hall⟩ := ih bs2 hr
        refine ⟨by simp [hlen], ?_⟩
        intro x hx
        rcases List.mem_cons.mp hx with hx | hx
        · subst hx; exact hB _ _ hg
        · exact hall x hx

/-- When every PoR block has length `B`, every per-challenge block of the
truncation-aware layout has length `(degree + 1) * B + B`, one per
challenge. -/
theorem challengeBlocks_ok_spec (porGen : PorGen) (pp : PublicParams)
    (ppor : PorPublicParams) (comm_r comm_d : Option Fr) (B : Nat)
    (hB : ∀ i out, porGen i ppor = some out → out.length = B) :
    ∀ cs bss, challengeBlocksU32 porGen pp ppor comm_r comm_d cs = .ok bss →
      bss.length = cs.length ∧
      ∀ b ∈ bss, b.length = (pp.graph.degree + 1) * B + B := by
  intro cs
  induction cs with
  | nil =>
    intro bss h
    unfold challengeBlocksU32 at h
    cases h
    simp
  | cons c rest ih =>
    intro bss h
    unfold challengeBlocksU32 challengeBlockU32 at h
    cases hpar : pp.graph.parentsBuf c with
    | none => rw [hpar] at h; cases h
    | some parents =>
      rw [hpar] at h
      dsimp only at h
      cases hpb : porBlocks porGen ppor comm_r (asU32 c :: parents) with
      | error e => rw [hpb] at h; cases h
      | ok rblocks =>
        rw [hpb] at h
        dsimp only at h
        cases hd : porGen ⟨comm_d, c⟩ ppor with
        | none => rw [hd] at h; cases h
        | some dblock =>
          rw [hd] at h
          dsimp only at h
          cases hrest : challengeBlocksU32 porGen pp ppor comm_r comm_d rest with
          | error e => rw [hrest] at h; cases h
          | ok bss2 =>
            rw [hrest] at h
            cases h
            obtain ⟨hlen2, hall2⟩ := ih bss2 hrest
            obtain ⟨hrbl, hrball⟩ := porBlocks_ok_spec porGen ppor comm_r B hB _ _ hpb
            have hparlen : parents.length = pp.graph.degree :=
              Graph.parentsBuf_length pp.graph c parents hpar
            have hflat : rblocks.flatten.length = (pp.graph.degree + 1) * B := by
              rw [flatten_length_of_const B rblocks hrball, hrbl]
              simp [hparlen, Nat.add_comm]
            refine ⟨by simp [hlen2], ?_⟩
            intro x hx
            rcases List.mem_cons.mp hx with hx | hx
            · subst hx
              simp [List.length_append, hflat, hB _ _ hd]
            · exact hall2 x hx

/-- A successful `generate_public_inputs` run decomposes into a replica id
and the flattened per-challenge blocks. -/
theorem gen_ok_layout (porGen : PorGen) (pub_in : PublicInputs)
    (pp : PublicParams) (v : List Fr)
    (hok : generate_public_inputs porGen pub_in pp = .ok v) :
    ∃ rid bss, pub_in.replica_id = some rid ∧
      challengeBlocksU32 porGen pp (porParamsOf pp) (commROf pub_in) (commDOf pub_in)
        pub_in.challenges = .ok bss ∧
      v = rid :: bss.flatten := by
  unfold generate_public_inputs at hok
  cases hrid : pub_in.replica_id with
  | none => rw [hrid] at hok; cases hok
  | some rid =>
    rw [hrid] at hok
    dsimp only at hok
    by_cases htau : pub_in.tau.isNone = pp.priv
    · rw [if_pos htau] at hok
      rw [challengesLoop_eq_blocks] at hok
      refine ⟨rid, ?_⟩
      cases ht : pub_in.tau with
      | none =>
        rw [ht] at hok
        dsimp only at hok
        cases hcb : challengeBlocksU32 porGen pp ⟨pp.graph.size, pp.priv⟩ none none
            pub_in.challenges with
        | error e => rw [hcb] at hok; cases hok
        | ok bss =>
          rw [hcb] at hok
          cases hok
          exact ⟨bss, rfl, by simpa [porParamsOf, commROf, commDOf, ht] using hcb, by simp⟩
      | some t =>
        rw [ht] at hok
        dsimp only at hok
        cases hcb : challengeBlocksU32 porGen pp ⟨pp.graph.size, pp.priv⟩
            (some t.comm_r) (some t.comm_d) pub_in.challenges with
        | error e => rw [hcb] at hok; cases hok
        | ok bss =>
          rw [hcb] at hok
          cases hok
          exact ⟨bss, rfl, by simpa [porParamsOf, commROf, commDOf, ht] using hcb, by simp⟩
    · rw [if_neg htau] at hok
      cases hok

/-- C3: whenever `generate_public_inputs` succeeds and every PoR block
generated under the constructed PoR parameters has the uniform length `B`,
the output vector has length
`1 + challenges.length * ((degree + 1) + 1) * B`. -/
theorem C3_output_length (porGen : PorGen) (pub_in : PublicInputs)
    (pp : PublicParams) (B : Nat) (v : List Fr)
    (hB : ∀ i out, porGen i (porParamsOf pp) = some out → out.length = B)
    (hok : generate_public_inputs porGen pub_in pp = .ok v) :
    v.length = 1 + pub_in.challenges.length * ((pp.graph.degree + 1) + 1) * B := by
  obtain ⟨rid, bss, hrid, hcb, hv⟩ := gen_ok_layout porGen pub_in pp v hok
  obtain ⟨hlen, hall⟩ :=
    challengeBlocks_ok_spec porGen pp (porParamsOf pp) (commROf pub_in)
      (commDOf pub_in) B hB pub_in.challenges bss hcb
  subst hv
  rw [List.length_cons, flatten_length_of_const ((pp.graph.degree + 1) * B + B) bss hall,
    hlen]
  ring

/-- Witness for C3 at the concrete instance: `porGenW` always emits blocks
of length 2, and the output for 2 challenges at degree 2 has length
`1 + 2 * ((2 + 1) + 1) * 2 = 17`. -/
theorem C3_output_length_witness :
    vecW.length = 1 + pubInW.challenges.length * ((ppW.graph.degree + 1) + 1) * 2 :=
  C3_output_length porGenW pubInW ppW 2 vecW
    (fun i out h => by
      rw [show out = [i.challenge, i.commitment.getD 0] from (Option.some.inj h).symm]
      rfl)
    (by decide)

/-! ### Circuit assembly helpers -/

/-- `chooseRoots` only ever fails with the missing-private-input error. -/
theorem chooseRoots_error (cpi : ComponentPrivateInputs) (proof : Proof)
    (b : Bool) (e : CompoundErr) (h : chooseRoots cpi proof b = .error e) :
    e = .isPrivateMissing := by
  unfold chooseRoots at h
  cases b with
  | false => simp at h
  | true =>
    rw [if_pos rfl] at h
    cases hcd : cpi.comm_d with
    | none => rw [hcd] at h; cases h; rfl
    | some cd =>
      rw [hcd] at h
      dsimp only at h
      cases hcr : cpi.comm_r with
      | none => rw [hcr] at h; cases h; rfl
      | some cr => rw [hcr] at h; cases h

/-- Full characterization of a successful `circuit` call: the three length
validations passed, the privacy invariant holds, and every field of the
produced witness structure is determined by the proof. -/
theorem circuit_ok_spec (pub_in : PublicInputs) (cpi : ComponentPrivateInputs)
    (proof : Proof) (pp : PublicParams) (c : DrgPoRepCircuit)
    (hok : circuit pub_in cpi proof pp = .ok c) :
    proof.nodes.length ≤ pp.challenges_count ∧
    proof.replica_parents.length = proof.nodes.length ∧
    proof.replica_nodes.length = proof.nodes.length ∧
    pub_in.tau.isNone = pp.priv ∧
    c.replica_nodes = proof.replica_nodes.map (fun node => some node.data) ∧
    c.replica_nodes_paths = proof.replica_nodes.map (fun node => node.proof.as_options) ∧
    c.replica_parents =
      proof.replica_parents.map (fun parents => parents.map (fun p => some p.2.data)) ∧
    c.replica_parents_paths =
      proof.replica_parents.map (fun parents =>
        parents.map (fun p => p.2.proof.as_options)) ∧
    c.data_nodes = proof.nodes.map (fun node => some node.data) ∧
    c.data_nodes_paths = proof.nodes.map (fun node => node.proof.as_options) ∧
    c.replica_id = pub_in.replica_id ∧
    c.priv = pp.priv := by
  unfold circuit at hok
  dsimp only at hok
  by_cases h1 : proof.nodes.length ≤ pp.challenges_count
  · rw [if_pos h1] at hok
    by_cases h2 : proof.replica_parents.length = proof.nodes.length
    · rw [if_pos h2] at hok
      by_cases h3 : proof.replica_nodes.length = proof.nodes.length
      · rw [if_pos h3] at hok
        cases hroots : chooseRoots cpi proof pp.priv with
        | error e => rw [hroots] at hok; cases hok
        | ok pr =>
          rw [hroots] at hok
          obtain ⟨dr, rr⟩ := pr
          dsimp only at hok
          by_cases htau : pub_in.tau.isNone = pp.priv
          · rw [if_pos htau] at hok
            cases hok
            exact ⟨h1, h2, h3, htau, rfl, rfl, rfl, rfl, rfl, rfl, rfl, rfl⟩
          · rw [if_neg htau] at hok; cases hok
      · rw [if_neg h3] at hok; cases hok
    · rw [if_neg h2] at hok; cases hok
  · rw [if_neg h1] at hok; cases hok

/-- When the privacy invariant holds, `circuit` never raises its
inconsistent-private-state error (the only place that error is produced is
the re-validation guard). -/
theorem circuit_no_inconsistent (pub_in : PublicInputs) (cpi : ComponentPrivateInputs)
    (proof : Proof) (pp : PublicParams)
    (htau : pub_in.tau.isNone = pp.priv) :
    circuit pub_in cpi proof pp ≠ .error .inconsistentPrivateState := by
  unfold circuit
  dsimp only
  by_cases h1 : proof.nodes.length ≤ pp.challenges_count
  · rw [if_pos h1]
    by_cases h2 : proof.replica_parents.length = proof.nodes.length
    · rw [if_pos h2]
      by_cases h3 : proof.replica_nodes.length = proof.nodes.length
      · rw [if_pos h3]
        cases hroots : chooseRoots cpi proof pp.priv with
        | error e =>
          intro h
          have he := chooseRoots_error cpi proof pp.priv e hroots
          cases h
          cases he
        | ok pr =>
          obtain ⟨dr, rr⟩ := pr
          dsimp only
          rw [if_pos htau]
          intro h
          cases h
      · rw [if_neg h3]; intro h; cases h
    · rw [if_neg h2]; intro h; cases h
  · rw [if_neg h1]; intro h; cases h

/-- The inner input loop only fails with the PoR error. -/
theorem porNodesLoop_error (porGen : PorGen) (ppor : PorPublicParams)
    (comm : Option Fr) :
    ∀ (nodes : List Nat) (input : List Fr) (e : CompoundErr),
      porNodesLoop porGen ppor comm nodes input = .error e → e = .porError := by
  intro nodes
  induction nodes with
  | nil => intro input e h; cases h
  | cons n rest ih =>
    intro input e h
    unfold porNodesLoop at h
    cases hg : porGen ⟨comm, n⟩ ppor with
    | none => rw [hg] at h; cases h; rfl
    | some b =>
      rw [hg] at h
      exact ih _ e h

/-- The challenge loop only fails with the graph or PoR error. -/
theorem challengesLoop_error (porGen : PorGen) (pp : PublicParams)
    (ppor : PorPublicParams) (comm_r comm_d : Option Fr) :
    ∀ (cs : List Nat) (input : List Fr) (e : CompoundErr),
      challengesLoop porGen pp ppor comm_r comm_d cs input = .error e →
        e = .graphError ∨ e = .porError := by
  intro cs
  induction cs with
  | nil => intro input e h; cases h
  | cons c rest ih =>
    intro input e h
    unfold challengesLoop at h
    cases hpar : pp.graph.parentsBuf c with
    | none => rw [hpar] at h; cases h; exact Or.inl rfl
    | some parents =>
      rw [hpar] at h
      dsimp only at h
      cases hpn : porNodesLoop porGen ppor comm_r (asU32 c :: parents) input with
      | error e2 =>
        rw [hpn] at h
        cases h
        exact Or.inr (porNodesLoop_error porGen ppor comm_r _ _ _ hpn)
      | ok input2 =>
        rw [hpn] at h
        dsimp only at h
        cases hd : porGen ⟨comm_d, c⟩ ppor with
        | none => rw [hd] at h; cases h; exact Or.inr rfl
        | some dblock =>
          rw [hd] at h
          exact ih _ e h

/-- When the privacy invariant holds, `generate_public_inputs` never raises
its tau-consistency error. -/
theorem gen_no_tau_error (porGen : PorGen) (pub_in : PublicInputs)
    (pp : PublicParams) (htau : pub_in.tau.isNone = pp.priv) :
    generate_public_inputs porGen pub_in pp ≠ .error .tauMustBeUnset := by
  unfold generate_public_inputs
  cases hrid : pub_in.replica_id with
  | none => intro h; cases h
  | some rid =>
    dsimp only
    rw [if_pos htau]
    intro h
    rcases challengesLoop_error porGen pp _ _ _ _ _ _ h with he | he <;> cases he

/-- C2: both entry points enforce the privacy invariant
`tau.is_none() == private`: when it is violated both `generate_public_inputs`
and `circuit` fail (they never disagree), and when it holds neither raises
its respective consistency error. -/
theorem C2_privacy_invariant (porGen : PorGen) (pub_in : PublicInputs)
    (pp : PublicParams) (cpi : ComponentPrivateInputs) (proof : Proof) :
    (pub_in.tau.isNone ≠ pp.priv →
      (generate_public_inputs porGen pub_in pp).isOk = false ∧
      (circuit pub_in cpi proof pp).isOk = false) ∧
    (pub_in.tau.isNone = pp.priv →
      generate_public_inputs porGen pub_in pp ≠ .error .tauMustBeUnset ∧
      circuit pub_in cpi proof pp ≠ .error .inconsistentPrivateState) := by
  constructor
  · intro hne
    constructor
    · unfold generate_public_inputs
      cases hrid : pub_in.replica_id with
      | none => rfl
      | some rid =>
        dsimp only
        rw [if_neg hne]
        rfl
    · cases hres : circuit pub_in cpi proof pp with
      | error e => rfl
      | ok c =>
        exact absurd (circuit_ok_spec pub_in cpi proof pp c hres).2.2.2.1 hne
  · intro htau
    exact ⟨gen_no_tau_error porGen pub_in pp htau,
      circuit_no_inconsistent pub_in cpi proof pp htau⟩

/-- Witness for C2: a violated invariant makes both entry points fail, and
a satisfied one triggers neither consistency error, at concrete inputs. -/
theorem C2_privacy_invariant_witness :
    ((generate_public_inputs porGenW pubInBadW ppW).isOk = false ∧
     (circuit pubInBadW cpiW proofW ppW).isOk = false) ∧
    (generate_public_inputs porGenW pubInW ppW ≠ .error .tauMustBeUnset ∧
     circuit pubInW cpiW proofW ppW ≠ .error .inconsistentPrivateState) :=
  ⟨(C2_privacy_invariant porGenW pubInBadW ppW cpiW proofW).1 (by decide),
   (C2_privacy_invariant porGenW pubInW ppW cpiW proofW).2 (by decide)⟩

/-- C6: `circuit` rejects, in validation order and before any construction,
a proof with more nodes than `challenges_count`, a parent-bundle count
differing from the node count, and a replica-node count differing from the
node count. -/
theorem C6_circuit_validation (pub_in : PublicInputs) (cpi : ComponentPrivateInputs)
    (proof : Proof) (pp : PublicParams) :
    (pp.challenges_count < proof.nodes.length →
      circuit pub_in cpi proof pp = .error .tooManyChallenges) ∧
    (proof.nodes.length ≤ pp.challenges_count →
      proof.replica_parents.length ≠ proof.nodes.length →
      circuit pub_in cpi proof pp = .error .replicaParentsMismatch) ∧
    (proof.nodes.length ≤ pp.challenges_count →
      proof.replica_parents.length = proof.nodes.length →
      proof.replica_nodes.length ≠ proof.nodes.length →
      circuit pub_in cpi proof pp = .error .replicaNodesMismatch) := by
  refine ⟨?_, ?_, ?_⟩
  · intro hgt
    unfold circuit
    dsimp only
    rw [if_neg (by omega)]
  · intro hle hne
    unfold circuit
    dsimp only
    rw [if_pos hle, if_neg hne]
  · intro hle heq hne
    unfold circuit
    dsimp only
    rw [if_pos hle, if_pos heq, if_neg hne]

/-- Witness for C6: each of the three validations fires at a concrete
input. -/
theorem C6_circuit_validation_witness :
    circuit pubInW cpiW proofBigW ppW = .error .tooManyChallenges ∧
    circuit pubInW cpiW proofMismatchW ppW = .error .replicaParentsMismatch :=
  ⟨(C6_circuit_validation pubInW cpiW proofBigW ppW).1 (by decide),
   (C6_circuit_validation pubInW cpiW proofMismatchW ppW).2.1 (by decide) (by decide)⟩

/-- C4 fails as stated: `circuit` never consults
`public_inputs.challenges`, so it accepts a proof whose node count differs
from the number of challenges in the public inputs.  Here a 1-node proof is
accepted against public inputs carrying 2 challenges. -/
theorem C4_counterexample :
    (circuit pubInW cpiW proofC4 ppW).isOk = true ∧
    proofC4.nodes.length ≠ pubInW.challenges.length := by
  decide

/-- C4 amended: for every proof accepted by `circuit`,
`len(replica_nodes) == len(nodes) == len(replica_parents)` and the common
length is at most `challenges_count`; equality with
`len(public_inputs.challenges)` is not validated. -/
theorem C4_lengths_invariant (pub_in : PublicInputs) (cpi : ComponentPrivateInputs)
    (proof : Proof) (pp : PublicParams) (c : DrgPoRepCircuit)
    (hok : circuit pub_in cpi proof pp = .ok c) :
    proof.replica_nodes.length = proof.nodes.length ∧
    proof.replica_parents.length = proof.nodes.length ∧
    proof.nodes.length ≤ pp.challenges_count := by
  obtain ⟨h1, h2, h3, _⟩ := circuit_ok_spec pub_in cpi proof pp c hok
  exact ⟨h3, h2, h1⟩

/-- Witness for the amended C4 at the concrete accepted proof. -/
theorem C4_lengths_invariant_witness :
    proofW.replica_nodes.length = proofW.nodes.length ∧
    proofW.replica_parents.length = proofW.nodes.length ∧
    proofW.nodes.length ≤ ppW.challenges_count :=
  C4_lengths_invariant pubInW cpiW proofW ppW circW4 (by decide)

/-- Mapping a function that is constant on a list gives a replicate. -/
theorem map_const_of_forall {α β : Type} (f : α → β) (v : β) :
    ∀ l : List α, (∀ x ∈ l, f x = v) → l.map f = List.replicate l.length v := by
  intro l
  induction l with
  | nil => intro; simp
  | cons a rest ih =>
    intro h
    simp only [List.map_cons, List.length_cons, List.replicate_succ]
    rw [h a (by simp), ih (fun x hx => h x (by simp [hx]))]

/-- C5: under the same public parameters, the circuit assembled from a real
accepted well-formed proof has exactly the structural shape of
`blank_circuit` — entry counts and bundle sizes given by `challenges_count`
and `degree`, and every path of the binary shape `depth - 1` elements of
one sibling each. -/
theorem C5_blank_circuit_shape (pub_in : PublicInputs) (cpi : ComponentPrivateInputs)
    (proof : Proof) (pp : PublicParams) (c : DrgPoRepCircuit)
    (hwf : wellFormedProof pp proof)
    (hok : circuit pub_in cpi proof pp = .ok c) :
    shapeOf c = shapeOf (blank_circuit pp) := by
  obtain ⟨w1, w2, w3, w4, w5, w6⟩ := hwf
  obtain ⟨_, _, _, _, hrn, hrnp, hrp, hrpp, hdn, hdnp, _, _⟩ :=
    circuit_ok_spec pub_in cpi proof pp c hok
  unfold shapeOf blank_circuit
  dsimp only
  simp only [Prod.mk.injEq]
  have hblankPath :
      pathShape (List.replicate (pp.graph.merkleTreeDepth - 1)
        (List.replicate (2 - 1) (none : Option Fr), (none : Option Bool))) =
        List.replicate (pp.graph.merkleTreeDepth - 1) 1 := by
    unfold pathShape
    rw [List.map_replicate]
    rfl
  refine ⟨?_, ?_, ?_, ?_, ?_, ?_⟩
  · rw [hrn, List.length_map, w2, List.length_replicate]
  · rw [hrnp, List.map_map]
    simp only [Function.comp_def]
    rw [map_const_of_forall _ _ proof.replica_nodes
      (fun node hn => w4 node hn), w2]
    rw [List.map_replicate, hblankPath]
  · rw [hrp, List.map_map]
    rw [map_const_of_forall _ pp.graph.degree proof.replica_parents
      (fun parents hps => by
        simp only [Function.comp_apply, List.length_map]
        exact (w6 parents hps).1), w3]
    rw [List.map_replicate, List.length_replicate]
  · rw [hrpp, List.map_map]
    simp only [Function.comp_def]
    rw [map_const_of_forall _
      (List.replicate pp.graph.degree
        (List.replicate (pp.graph.merkleTreeDepth - 1) 1)) proof.replica_parents
      (fun parents hps => by
        simp only [List.map_map, Function.comp_def]
        rw [map_const_of_forall _ _ parents
          (fun p hp => (w6 parents hps).2 p hp), (w6 parents hps).1]), w3]
    rw [List.map_replicate, List.map_replicate, hblankPath]
  · rw [hdn, List.length_map, w1, List.length_replicate]
  · rw [hdnp, List.map_map]
    simp only [Function.comp_def]
    rw [map_const_of_forall _ _ proof.nodes (fun node hn => w5 node hn), w1]
    rw [List.map_replicate, hblankPath]

/-- Witness for C5: the shape of the circuit assembled from the concrete
accepted proof equals the blank-circuit shape. -/
theorem C5_blank_circuit_shape_witness :
    shapeOf circW = shapeOf (blank_circuit ppW) :=
  C5_blank_circuit_shape pubInW cpiW proofW ppW circW (by decide) (by decide)

end FilProofs
